import Mathlib

/-!
Verification of the g3pylib client library core against its sources.

The development shallowly embeds the parts of the library that the checked
properties are about:

* `g3pylib/websocket/__init__.py`: the `SignalSubscriptionHandler` mixin
  (refcounted signal subscriptions) and the `G3WebSocketClientProtocol`
  receiver task and `require` request correlation;
* `g3pylib/streams.py`: `NALUnit`/`FUA` parsing, the `VideoStream.demux`
  demuxer loop, and the `Stream.handle_rtp`/`handle_rtcp` timestamp logic;
* `g3pylib/recordings/__init__.py`: the recordings mirror (`_get_children`,
  the `children` sequence view and the child-added handler task).

Python dicts are embedded as insertion-ordered association lists, JSON
values as an inductive type, machine floats as rationals, and code that
raises is embedded with `Option`/`Except` or an explicit outcome value.
-/

/-! ## JSON values

Messages on the control channel are `json.loads` results.  Arrays and
objects are separate mutual inductives so that decidable equality can be
derived; objects keep key order and are assumed to have distinct keys, as
`json.loads` produces. -/

mutual

inductive Json where
  | jnull
  | jbool (b : Bool)
  | jnum (n : Int)
  | jstr (s : String)
  | jarr (xs : JsonArr)
  | jobj (kvs : JsonObj)
  deriving DecidableEq

inductive JsonArr where
  | nil
  | cons (hd : Json) (tl : JsonArr)
  deriving DecidableEq

inductive JsonObj where
  | nil
  | cons (k : String) (v : Json) (tl : JsonObj)
  deriving DecidableEq

end

/-- Lookup of a key in a JSON object (Python `d[k]` / mapping-pattern capture). -/
def JsonObj.find : JsonObj → String → Option Json
  | .nil, _ => none
  | .cons k v tl, key => if k = key then some v else tl.find key

/-- Convenience constructor for JSON objects from a list of pairs. -/
def jsonObjOfList : List (String × Json) → JsonObj
  | [] => .nil
  | (k, v) :: tl => .cons k v (jsonObjOfList tl)

/-- Whether a JSON value is an object containing the given key; this is what a
Python mapping pattern `{"k": _}` tests (extra keys are allowed). -/
def Json.hasKey : Json → String → Bool
  | .jobj kvs, key => (kvs.find key).isSome
  | _, _ => false

/-! ## Association lists

Python `dict`s are embedded as insertion-ordered association lists:
assignment to an existing key updates it in place, assignment to a new key
appends it at the end, and `del` removes it.  Keys are kept distinct by the
operations, matching `dict` semantics. -/

/-- Lookup in an association list (Python `d[k]`, as an `Option`). -/
def alookup {α β : Type} [DecidableEq α] : List (α × β) → α → Option β
  | [], _ => none
  | (k, v) :: tl, key => if k = key then some v else alookup tl key

/-- Assignment `d[k] = v`: update in place if the key exists, else append. -/
def aput {α β : Type} [DecidableEq α] : List (α × β) → α → β → List (α × β)
  | [], key, val => [(key, val)]
  | (k, v) :: tl, key, val =>
      if k = key then (key, val) :: tl else (k, v) :: aput tl key val

/-- Deletion `del d[k]` (callers guard on presence, since `del` raises
`KeyError` on a missing key). -/
def aerase {α β : Type} [DecidableEq α] (l : List (α × β)) (key : α) :
    List (α × β) :=
  l.filter (fun p => p.1 ≠ key)

/-! ## Signal subscription handler

Embedding of `SignalSubscriptionHandler` from `g3pylib/websocket/__init__.py`.
Signal ids are arbitrary JSON values (the server's response body, stored via a
typing-only `cast`); subscription ids are the values of the global
`_subscription_count` counter; each subscriber queue is the list of signal
bodies delivered to it. -/

/-- State installed by `_init_signal_subscription_handling`:
`_subscription_count`, `_signal_id_by_uri` and `_signal_queues_by_id`.
`_signal_queues_by_id` is a `defaultdict(dict)`: a lookup of a missing signal
id inserts an empty inner dict, which `defaultGetQueues`/`aput` reproduce. -/
structure SubHandlerState where
  subscriptionCount : Nat
  signalIdByUri : List (String × Json)
  signalQueuesById : List (Json × List (Nat × List Json))
  deriving DecidableEq

/-- The state right after `_init_signal_subscription_handling`. -/
def initSubHandler : SubHandlerState :=
  { subscriptionCount := 0, signalIdByUri := [], signalQueuesById := [] }

/-- Read access `self._signal_queues_by_id[signal_id]` of the `defaultdict`:
a missing key behaves as an empty inner dict. -/
def defaultGetQueues (m : List (Json × List (Nat × List Json))) (sid : Json) :
    List (Nat × List Json) :=
  (alookup m sid).getD []

/-- A POST sent through `_require_post_subscribe` (body `null`) or
`_require_post_unsubscribe` (body = the stored signal id). -/
inductive SigPost where
  | subscribePost (uri : String)
  | unsubscribePost (uri : String) (sid : Json)
  deriving DecidableEq

/-- Embedding of `SignalSubscriptionHandler.subscribe_to_signal`.

`serverSid` is the body the server returns to the subscribe POST when one is
sent (the glasses return `false` on failure, hence a `Json` value).  The
returned triple `(uri, sid, subId)` is the argument tuple captured by the
`_unsubscribe_to_signal` coroutine handed back to the caller.

Note the source's `if not signal_id: SubscribeError(...)` constructs the
exception without `raise`, so it has no effect on any execution path; this
function is accordingly total. -/
def subscribeToSignal (st : SubHandlerState) (uri : String) (serverSid : Json) :
    SubHandlerState × List SigPost × (String × Json × Nat) :=
  let count := st.subscriptionCount + 1
  match alookup st.signalIdByUri uri with
  | some sid =>
      let inner := defaultGetQueues st.signalQueuesById sid
      ({ subscriptionCount := count,
         signalIdByUri := st.signalIdByUri,
         signalQueuesById := aput st.signalQueuesById sid (aput inner count []) },
       [], (uri, sid, count))
  | none =>
      let inner := defaultGetQueues st.signalQueuesById serverSid
      ({ subscriptionCount := count,
         signalIdByUri := aput st.signalIdByUri uri serverSid,
         signalQueuesById :=
           aput st.signalQueuesById serverSid (aput inner count []) },
       [SigPost.subscribePost uri], (uri, serverSid, count))

/-- Failure modes of `_unsubscribe_to_signal`: a `KeyError` from `del` on a
missing key, or the `UnsubscribeError` raised when the server returns a falsy
body to the unsubscribe POST. -/
inductive SubHandlerErr where
  | keyError
  | unsubscribeFailed
  deriving DecidableEq

/-- Embedding of `SignalSubscriptionHandler._unsubscribe_to_signal` (awaiting
the handle returned by `subscribe_to_signal`).  `serverOk` is the truthiness
of the body the server returns to the unsubscribe POST, when one is sent.
On failure the POST that was already sent before the raise is not reported;
the claims below only quantify over successful runs. -/
def unsubscribeToSignal (st : SubHandlerState) (uri : String) (sid : Json)
    (subId : Nat) (serverOk : Bool) :
    Except SubHandlerErr (SubHandlerState × List SigPost) :=
  let signalQueues := defaultGetQueues st.signalQueuesById sid
  if (alookup signalQueues subId).isSome then
    let signalQueues' := aerase signalQueues subId
    let st1 : SubHandlerState :=
      { st with signalQueuesById := aput st.signalQueuesById sid signalQueues' }
    if signalQueues'.length = 0 then
      if serverOk then
        if (alookup st1.signalIdByUri uri).isSome then
          .ok ({ st1 with signalIdByUri := aerase st1.signalIdByUri uri },
               [SigPost.unsubscribePost uri sid])
        else .error .keyError
      else .error .unsubscribeFailed
    else .ok (st1, [])
  else .error .keyError

/-- Embedding of `SignalSubscriptionHandler._receive_signal`: every queue
registered under `sid` receives a defensive copy of `body` (value semantics
make the copy the value itself); the `defaultdict` access inserts an empty
inner dict when `sid` is unknown.  The Python function cannot raise. -/
def receiveSignal (st : SubHandlerState) (sid : Json) (body : Json) :
    SubHandlerState :=
  let queues := defaultGetQueues st.signalQueuesById sid
  { st with
    signalQueuesById :=
      aput st.signalQueuesById sid (queues.map (fun q => (q.1, q.2 ++ [body]))) }

/-- The number of live local subscribers on a path: the size of the inner
queue dict stored under the path's signal id, `0` when the path has no
stored signal id. -/
def liveCount (st : SubHandlerState) (uri : String) : Nat :=
  match alookup st.signalIdByUri uri with
  | none => 0
  | some sid => (defaultGetQueues st.signalQueuesById sid).length

/-- One client-side operation on the subscription handler: a call to
`subscribe_to_signal` (with the server's response body for the subscribe POST,
should one be sent), or an await of an unsubscribe handle `(uri, sid, subId)`
(with the truthiness of the server's response to the unsubscribe POST). -/
inductive SubOp where
  | sub (uri : String) (serverSid : Json)
  | unsub (uri : String) (sid : Json) (subId : Nat) (serverOk : Bool)

/-- Trace admissibility failures, separated from the handler's own errors:
`staleHandle` rejects an awaited handle whose signal id is not the one
currently stored for its path (real handles always carry the stored id, see
`runSubOps`), and `serverIdClash` rejects a server that answers a fresh
subscribe with a signal id already in use by a different path (the device
assigns ids per path). -/
inductive SubRunErr where
  | handlerErr (e : SubHandlerErr)
  | staleHandle
  | serverIdClash

/-- Runs a list of operations against the handler, accumulating the POSTs
sent to the server.  An unsubscribe handle is only admitted when its signal
id matches the stored one — every handle produced by `subscribe_to_signal`
carries the id stored for its path, and that binding is unchanged while any
of the path's subscribers is live — and a fresh subscribe is only admitted
when the server's id is not bound to another path. -/
def runSubOps : SubHandlerState → List SubOp → Except SubRunErr (SubHandlerState × List SigPost)
  | st, [] => .ok (st, [])
  | st, SubOp.sub uri serverSid :: rest =>
      if alookup st.signalIdByUri uri = none
          ∧ st.signalIdByUri.any (fun p => p.2 = serverSid) then
        .error .serverIdClash
      else
        let r := subscribeToSignal st uri serverSid
        match runSubOps r.1 rest with
        | .ok (stf, ps) => .ok (stf, r.2.1 ++ ps)
        | .error e => .error e
  | st, SubOp.unsub uri sid subId serverOk :: rest =>
      if alookup st.signalIdByUri uri = some sid then
        match unsubscribeToSignal st uri sid subId serverOk with
        | .ok (st', posts) =>
            match runSubOps st' rest with
            | .ok (stf, ps) => .ok (stf, posts ++ ps)
            | .error e => .error e
        | .error e => .error (.handlerErr e)
      else .error .staleHandle

/-! ## Control channel: receiver task and request correlation

Embedding of `G3WebSocketClientProtocol` from `g3pylib/websocket/__init__.py`:
the `_message_count`/`_future_messages` request correlation used by `require`
and the message dispatch of `start_receiver_task.receiver_task`. -/

/-- The state of one entry of `_future_messages`: an `asyncio.Future` that is
pending, resolved with a response body (`set_result`), or failed with
`GlassesError(message, error_code)` (`set_exception`).  The raw JSON values
are stored; the source's `cast` calls are typing-only no-ops. -/
inductive FutureVal where
  | pending
  | resolved (body : Json)
  | failedGlasses (errorCode : Json) (errorMessage : Json)
  deriving DecidableEq

/-- Connection state: `_message_count`, the `_future_messages` pending map
(keyed by the integer ids `require` allocates) and the mixin's subscription
state.  The transport itself is external to the model. -/
structure ConnState where
  messageCount : Nat
  futureMessages : List (Int × FutureVal)
  subHandler : SubHandlerState
  deriving DecidableEq

/-- The state right after `G3WebSocketClientProtocol.__init__`. -/
def initConn : ConnState :=
  { messageCount := 0, futureMessages := [], subHandler := initSubHandler }

/-- Embedding of the send half of `require`: increment `_message_count`, tag
the request with the fresh id, create a pending future under that id and send
the request.  Returns the assigned id; the request body itself does not
affect the connection state. -/
def requireSend (st : ConnState) : ConnState × Int :=
  let count := st.messageCount + 1
  ({ st with
     messageCount := count,
     futureMessages := aput st.futureMessages (count : Int) FutureVal.pending },
   (count : Int))

/-- How one iteration of `receiver_task` ends.  The first three outcomes let
the `async for` loop continue; the last three are exceptions propagating out
of the loop body, which terminate the task:
`invalidResponseRaised` is the explicit `raise InvalidResponseError` of the
`case _` arm (after logging), `keyErrorRaised` is the `KeyError` of
`self._future_messages[message_id]` on an unknown id, and
`invalidStateRaised` is the `InvalidStateError` of `set_result`/
`set_exception` on an already-settled future. -/
inductive ReceiverOutcome where
  | resolvedResult
  | resolvedError
  | signalDelivered
  | invalidResponseRaised
  | keyErrorRaised
  | invalidStateRaised
  deriving DecidableEq

/-- Whether the outcome lets the receiver loop continue with the next
message. -/
def ReceiverOutcome.continues : ReceiverOutcome → Bool
  | .resolvedResult => true
  | .resolvedError => true
  | .signalDelivered => true
  | _ => false

/-- The `_future_messages` key a received `"id"` value designates.  The map's
keys are the `int`s allocated by `require`, so only a JSON number can hit an
entry; any other value misses (Python's bool-int key unification is not
modeled — no claim exercises it). -/
def jsonIdKey : Json → Option Int
  | .jnum n => some n
  | _ => none

/-- The `{"id": ..., "body": ...}` arm: `set_result(body)` on the pending
future. -/
def receiverResolve (st : ConnState) (mid mbody : Json) :
    ConnState × ReceiverOutcome :=
  match jsonIdKey mid with
  | none => (st, .keyErrorRaised)
  | some k =>
      match alookup st.futureMessages k with
      | none => (st, .keyErrorRaised)
      | some FutureVal.pending =>
          ({ st with
             futureMessages := aput st.futureMessages k (.resolved mbody) },
           .resolvedResult)
      | some _ => (st, .invalidStateRaised)

/-- The `{"id": ..., "error": ..., "message": ...}` arm:
`set_exception(GlassesError(message, error))` on the pending future. -/
def receiverError (st : ConnState) (mid ecode emsg : Json) :
    ConnState × ReceiverOutcome :=
  match jsonIdKey mid with
  | none => (st, .keyErrorRaised)
  | some k =>
      match alookup st.futureMessages k with
      | none => (st, .keyErrorRaised)
      | some FutureVal.pending =>
          ({ st with
             futureMessages := aput st.futureMessages k (.failedGlasses ecode emsg) },
           .resolvedError)
      | some _ => (st, .invalidStateRaised)

/-- One iteration of `receiver_task` on a parsed message: the source's
`match` tries the three mapping patterns in order (a Python mapping pattern
matches any dict containing the named keys) and raises `InvalidResponseError`
on everything else, logging first. -/
def receiverStep (st : ConnState) (m : Json) : ConnState × ReceiverOutcome :=
  match m with
  | .jobj kvs =>
      match kvs.find "id", kvs.find "body" with
      | some mid, some mbody => receiverResolve st mid mbody
      | _, _ =>
          match kvs.find "id", kvs.find "error", kvs.find "message" with
          | some mid, some ecode, some emsg => receiverError st mid ecode emsg
          | _, _, _ =>
              match kvs.find "signal", kvs.find "body" with
              | some sid, some sbody =>
                  ({ st with subHandler := receiveSignal st.subHandler sid sbody },
                   .signalDelivered)
              | _, _ => (st, .invalidResponseRaised)
  | _ => (st, .invalidResponseRaised)

/-- The receiver loop over a list of incoming messages: it handles messages
until an iteration raises, which ends the task; later messages are never
read.  Returns the final state and the outcome of every iteration that
ran. -/
def receiverRun (st : ConnState) : List Json → ConnState × List ReceiverOutcome
  | [] => (st, [])
  | m :: rest =>
      let (st', o) := receiverStep st m
      if o.continues then
        let (stf, os) := receiverRun st' rest
        (stf, o :: os)
      else (st', [o])

/-- A message is of one of the three valid shapes of the protocol. -/
def validShape (m : Json) : Bool :=
  (m.hasKey "id" && m.hasKey "body")
    || (m.hasKey "id" && m.hasKey "error" && m.hasKey "message")
    || (m.hasKey "signal" && m.hasKey "body")

/-- One step of the connection from the receiver task's point of view: a
concurrent `require` call registering its request (the send), or the arrival
of a message on the socket. -/
inductive ConnOp where
  | sendReq
  | recvMsg (m : Json)

/-- Runs connection operations; `none` as soon as a received message makes
the receiver task raise (the task is dead from then on). -/
def runConn : ConnState → List ConnOp → Option ConnState
  | st, [] => some st
  | st, ConnOp.sendReq :: rest => runConn (requireSend st).1 rest
  | st, ConnOp.recvMsg m :: rest =>
      let (st', o) := receiverStep st m
      if o.continues then runConn st' rest else none

/-! ## Video demuxer

Embedding of `NALUnit`/`FUA` parsing and of the `VideoStream.demux.demuxer`
loop from `g3pylib/streams.py`.  An RTP payload is a byte list; the NAL unit
and FU header fields are the masked bits of the first and second byte. -/

/-- NAL unit type: `(data[0] & 0b00011111) >> 0`. -/
def nalTypeOf (p : List Nat) : Nat := p.headD 0 &&& 31

/-- Forbidden-zero bit: `(data[0] & 0b10000000) >> 7`. -/
def nalF (p : List Nat) : Nat := (p.headD 0 &&& 128) >>> 7

/-- NAL ref IDC: `(data[0] & 0b01100000) >> 5`. -/
def nalNRI (p : List Nat) : Nat := (p.headD 0 &&& 96) >>> 5

/-- FU-A start bit: `(data[1] & 0b10000000) >> 7`. -/
def fuS (p : List Nat) : Nat := (p.getD 1 0 &&& 128) >>> 7

/-- FU-A end bit: `(data[1] & 0b01000000) >> 6`. -/
def fuE (p : List Nat) : Nat := (p.getD 1 0 &&& 64) >>> 6

/-- FU-A original type: `(data[1] & 0b00011111) >> 0`. -/
def fuOriginalType (p : List Nat) : Nat := p.getD 1 0 &&& 31

/-- FU-A payload: `data[2:]` (indicator and FU header stripped). -/
def fuPayload (p : List Nat) : List Nat := p.drop 2

/-- `NALUnit.from_fu_a` applied to a start fragment: one header byte
`fu_a.header & (F_MASK | NRI_MASK) | fu_a.original_type` followed by the
fragment's payload. -/
def fromFuA (p : List Nat) : List Nat :=
  ((p.headD 0 &&& (128 ||| 96)) ||| fuOriginalType p) :: fuPayload p

/-- Demuxer state of a `VideoStream`: `sps_or_pps_received` (set in
`__init__`) and `_nal_unit_builder`, which is only a class-level annotation —
it has no value until the first start fragment assigns it, and reading it
before that raises `AttributeError` (modeled as `none`).  The builder is not
cleared when a NAL unit is emitted. -/
structure DemuxState where
  spsOrPpsReceived : Bool
  nalUnitBuilder : Option (List Nat × Option ℚ)
  deriving DecidableEq

/-- Demuxer state of a fresh `VideoStream`. -/
def initDemux : DemuxState := { spsOrPpsReceived := false, nalUnitBuilder := none }

/-- One iteration of `VideoStream.demux.demuxer` on an RTP payload and its
timestamp.  `none` models an exception killing the demuxer task: an
`IndexError` reading a header byte past the payload, or the `AttributeError`
of `self._nal_unit_builder` when a non-start fragment arrives before any
start fragment ever assigned it.  Otherwise returns the next state and the
NAL units put on the output queue by this iteration. -/
def demuxStep (st : DemuxState) (p : List Nat) (ts : Option ℚ) :
    Option (DemuxState × List (List Nat × Option ℚ)) :=
  if p.length < 1 then none
  else
    let t := nalTypeOf p
    if t = 7 ∨ t = 8 then
      some ({ st with spsOrPpsReceived := true }, [(p, ts)])
    else if st.spsOrPpsReceived = false then
      some (st, [])
    else if t = 1 ∨ t = 5 then
      some (st, [(p, ts)])
    else if t = 28 then
      if p.length < 2 then none
      else if fuS p ≠ 0 then
        some ({ st with nalUnitBuilder := some (fromFuA p, ts) }, [])
      else
        match st.nalUnitBuilder with
        | none => none
        | some (d, bts) =>
            let d' := d ++ fuPayload p
            let st' : DemuxState := { st with nalUnitBuilder := some (d', bts) }
            if fuE p ≠ 0 then some (st', [(d', bts)]) else some (st', [])
    else
      some (st, [])

/-- The demuxer task over a packet sequence: iterates `demuxStep`, stopping
for good when an iteration raises.  Returns the final state, the emitted NAL
units in order, and whether the task died. -/
def demuxRun (st : DemuxState) :
    List (List Nat × Option ℚ) → DemuxState × List (List Nat × Option ℚ) × Bool
  | [] => (st, [], false)
  | (p, ts) :: rest =>
      match demuxStep st p ts with
      | none => (st, [], true)
      | some (st', out) =>
          let (stf, outs, c) := demuxRun st' rest
          (stf, out ++ outs, c)

/-! ## RTP/RTCP receiver timestamps

Embedding of `Stream.handle_rtp` and `Stream.handle_rtcp` from
`g3pylib/streams.py`.  NTP times are rationals standing for the float
arithmetic of the source; RTP timestamps are the integers `dpkt` yields. -/

/-- The fields of an RTP packet the receiver reads. -/
structure RtpPacket where
  ts : Int
  dat : List Nat
  deriving DecidableEq

/-- An RTCP sender report (`rtcp.get(200)`): its NTP time and RTP
timestamp. -/
structure SenderReport where
  ntp : ℚ
  ts : Int
  deriving DecidableEq

/-- A compound RTCP packet, as far as the receiver looks at it: it either
contains a sender report or not. -/
structure RtcpPacket where
  senderReport : Option SenderReport
  deriving DecidableEq

/-- Per-stream receiver state: `_last_rtcp_timestamp`, `_last_ntp_time`
(both `None` until the first sender report), the unbounded `rtp_queue` of
`(rtp, ntp_timestamp)` pairs and the bounded (capacity 100) `rtcp_queue`. -/
structure StreamState where
  lastRtcpTimestamp : Option Int
  lastNtpTime : Option ℚ
  rtpQueue : List (RtpPacket × Option ℚ)
  rtcpQueue : List RtcpPacket
  deriving DecidableEq

/-- Receiver state of a fresh `Stream`. -/
def initStream : StreamState :=
  { lastRtcpTimestamp := none, lastNtpTime := none, rtpQueue := [], rtcpQueue := [] }

/-- `TIMESTAMP_GRANULARITY`. -/
def timestampGranularity : ℚ := 90000

/-- Embedding of `Stream.handle_rtp`: when both `_last_ntp_time` and
`_last_rtcp_timestamp` are set, enqueue the packet with
`last_ntp + (rtp.ts - last_rtcp_ts) / 90000`; otherwise enqueue it with
`None`. -/
def handleRtp (st : StreamState) (rtp : RtpPacket) : StreamState :=
  let ntpTimestamp : Option ℚ :=
    match st.lastNtpTime, st.lastRtcpTimestamp with
    | some ntp, some rts => some (ntp + ((rtp.ts - rts : Int) : ℚ) / timestampGranularity)
    | _, _ => none
  { st with rtpQueue := st.rtpQueue ++ [(rtp, ntpTimestamp)] }

/-- Embedding of `Stream.handle_rtcp`: enqueue the packet on the bounded
`rtcp_queue` (dropped with a warning when full), then, if the packet holds a
sender report, store its NTP time and RTP timestamp. -/
def handleRtcp (st : StreamState) (rtcp : RtcpPacket) : StreamState :=
  let st1 :=
    if st.rtcpQueue.length < 100 then { st with rtcpQueue := st.rtcpQueue ++ [rtcp] }
    else st
  match rtcp.senderReport with
  | none => st1
  | some sr => { st1 with lastNtpTime := some sr.ntp, lastRtcpTimestamp := some sr.ts }

/-- A packet arriving on the stream's transport: the two callbacks of
`RTPTransportClient`. -/
inductive StreamEv where
  | rtpEv (p : RtpPacket)
  | rtcpEv (r : RtcpPacket)

/-- Runs the receiver callbacks over a packet arrival sequence. -/
def runStream (st : StreamState) (evs : List StreamEv) : StreamState :=
  evs.foldl
    (fun s e =>
      match e with
      | .rtpEv p => handleRtp s p
      | .rtcpEv r => handleRtcp s r)
    st

/-- The most recent sender report in an arrival sequence. -/
def lastSR (evs : List StreamEv) : Option SenderReport :=
  evs.foldl
    (fun acc e =>
      match e with
      | .rtcpEv r =>
          match r.senderReport with
          | some sr => some sr
          | none => acc
      | .rtpEv _ => acc)
    none

/-! ## Recordings mirror

Embedding of `Recordings` from `g3pylib/recordings/__init__.py`: the
`_children` dict built by `_get_children`, the `children`/`__getitem__`
sequence view and the child-added handler task. -/

/-- A `Recording` as held in the mirror: only its device-assigned uuid is
relevant here (the object also stores the connection, the recordings path
and the HTTP base URL, all request plumbing). -/
structure RecordingV where
  uuid : String
  deriving DecidableEq

/-- `RecordingsEventKind`. -/
inductive RecordingsEventKind where
  | added
  | removed
  deriving DecidableEq

/-- Embedding of `Recordings._get_children`: a dict from uuid to `Recording`
built over `reversed(children)`, where `children` is the list the initial GET
on the recordings path returned. -/
def getChildren (children : List String) : List (String × RecordingV) :=
  children.reverse.map (fun u => (u, { uuid := u }))

/-- The sequence view of the mirror (`Recordings.children` and
`__getitem__`): `list(reversed(self._children.values()))`. -/
def childrenView (children : List (String × RecordingV)) : List RecordingV :=
  (children.map Prod.snd).reverse

/-- Embedding of one iteration of `handle_child_added_task` on a signal body:
`self._children[body[0]] = Recording(...)`, then `(ADDED, body)` is put on
the mirror's event queue.  `none` models the `IndexError` of `body[0]` on an
empty body. -/
def handleChildAdded (children : List (String × RecordingV))
    (events : List (RecordingsEventKind × List String)) (body : List String) :
    Option (List (String × RecordingV) × List (RecordingsEventKind × List String)) :=
  match body with
  | [] => none
  | u :: _ =>
      some (aput children u { uuid := u }, events ++ [(RecordingsEventKind.added, body)])

/-- The `(ntp, rtp-timestamp)` anchor a stream state holds, when both fields
are set (they are only ever set together, by a sender report). -/
def srStateOf (st : StreamState) : Option SenderReport :=
  match st.lastNtpTime, st.lastRtcpTimestamp with
  | some ntp, some ts => some { ntp := ntp, ts := ts }
  | _, _ => none

/-- Internal well-formedness of the subscription handler state, maintained
by the operations under the trace admissibility of `runSubOps`:
a mapped path's inner queue dict is nonempty; distinct paths map to distinct
signal ids; inner subscription-id keys are distinct and bounded by the
global counter. -/
def SubInv (st : SubHandlerState) : Prop :=
  (∀ uri sid, alookup st.signalIdByUri uri = some sid →
      defaultGetQueues st.signalQueuesById sid ≠ [])
  ∧ (∀ u1 u2 sid, alookup st.signalIdByUri u1 = some sid →
      alookup st.signalIdByUri u2 = some sid → u1 = u2)
  ∧ (∀ sid, ((defaultGetQueues st.signalQueuesById sid).map Prod.fst).Nodup)
  ∧ (∀ sid k, k ∈ (defaultGetQueues st.signalQueuesById sid).map Prod.fst →
      k ≤ st.subscriptionCount)

/-- A demuxer output list respects the parameter-set gate: a NAL unit of
type 1 (non-IDR slice) or 5 (IDR slice) appears only after some NAL unit of
type 7 (SPS) or 8 (PPS). -/
def emissionsGated (out : List (List Nat × Option ℚ)) : Prop :=
  ∀ (i : Nat) (u : List Nat × Option ℚ), out[i]? = some u →
    (nalTypeOf u.1 = 1 ∨ nalTypeOf u.1 = 5) →
    ∃ (j : Nat) (v : List Nat × Option ℚ), j < i ∧ out[j]? = some v
      ∧ (nalTypeOf v.1 = 7 ∨ nalTypeOf v.1 = 8)

/-! ## Theorems -/

theorem alookup_aput_self {α β : Type} [DecidableEq α] (l : List (α × β))
    (k : α) (v : β) : alookup (aput l k v) k = some v := by
  induction l with
  | nil => simp [aput, alookup]
  | cons hd tl ih =>
      obtain ⟨k', v'⟩ := hd
      by_cases h : k' = k <;> simp [aput, alookup, h, ih]

theorem alookup_aput_ne {α β : Type} [DecidableEq α] (l : List (α × β))
    (k k' : α) (v : β) (h : k' ≠ k) :
    alookup (aput l k v) k' = alookup l k' := by
  have hk : k ≠ k' := Ne.symm h
  induction l with
  | nil => simp [aput, alookup, hk]
  | cons hd tl ih =>
      obtain ⟨k₀, v₀⟩ := hd
      by_cases h₀ : k₀ = k
      · subst h₀
        simp [aput, alookup, hk]
      · simp [aput, alookup, h₀, ih]

theorem alookup_aerase_self {α β : Type} [DecidableEq α] (l : List (α × β))
    (k : α) : alookup (aerase l k) k = none := by
  induction l with
  | nil => simp [aerase, alookup]
  | cons hd tl ih =>
      obtain ⟨k₀, v₀⟩ := hd
      by_cases h : k₀ = k
      · simpa [aerase, List.filter, h] using ih
      · simpa [aerase, List.filter, alookup, h] using ih

theorem alookup_aerase_ne {α β : Type} [DecidableEq α] (l : List (α × β))
    (k k' : α) (h : k' ≠ k) :
    alookup (aerase l k) k' = alookup l k' := by
  induction l with
  | nil => simp [aerase, alookup]
  | cons hd tl ih =>
      obtain ⟨k₀, v₀⟩ := hd
      by_cases h₀ : k₀ = k
      · subst h₀
        have hne : ¬ k₀ = k' := fun hh => h hh.symm
        simpa [aerase, List.filter, alookup, hne] using ih
      · by_cases h₁ : k₀ = k'
        · subst h₁
          simp [aerase, List.filter, alookup, h₀, h]
        · simpa [aerase, List.filter, alookup, h₀, h₁] using ih

theorem keys_aput_of_mem {α β : Type} [DecidableEq α] (l : List (α × β))
    (k : α) (v : β) (h : (alookup l k).isSome) :
    (aput l k v).map Prod.fst = l.map Prod.fst := by
  induction l with
  | nil => simp [alookup] at h
  | cons hd tl ih =>
      obtain ⟨k₀, v₀⟩ := hd
      by_cases h₀ : k₀ = k
      · simp [aput, h₀]
      · simp [alookup, h₀] at h
        simp [aput, h₀, ih h]

theorem keys_aput_of_not_mem {α β : Type} [DecidableEq α] (l : List (α × β))
    (k : α) (v : β) (h : alookup l k = none) :
    (aput l k v).map Prod.fst = l.map Prod.fst ++ [k] := by
  induction l with
  | nil => simp [aput]
  | cons hd tl ih =>
      obtain ⟨k₀, v₀⟩ := hd
      by_cases h₀ : k₀ = k
      · simp [alookup, h₀] at h
      · simp [alookup, h₀] at h
        simp [aput, h₀, ih h]

/-- Claim C5, counterexample: after the initial fetch returns children
`["u1", "u2"]`, the mirror's sequence view is not `[u2, u1]` — the reversal
in `_get_children` and the reversal in the `children` view cancel, so the
view is `[u1, u2]`, the fetched order. -/
theorem c5_counterexample :
    childrenView (getChildren ["u1", "u2"])
      ≠ [{ uuid := "u2" }, { uuid := "u1" }] := by
  decide

/-- Claim C5, amended: after the initial fetch returns children
`["u1", "u2"]`, the mirror's sequence view is `[u1, u2]` (the reversal at
fetch time and the reversal in the view cancel); after a child-added signal
with body `["u3"]` is handled, the view is `[u3, u1, u2]` (the newly added
recording appears first) and `(ADDED, ["u3"])` is put on the mirror's event
queue. -/
theorem c5_recordings_mirror_amended :
    childrenView (getChildren ["u1", "u2"]) = [{ uuid := "u1" }, { uuid := "u2" }]
    ∧ handleChildAdded (getChildren ["u1", "u2"]) [] ["u3"]
        = some ([("u2", { uuid := "u2" }), ("u1", { uuid := "u1" }),
                 ("u3", { uuid := "u3" })],
                [(RecordingsEventKind.added, ["u3"])])
    ∧ childrenView [("u2", { uuid := "u2" }), ("u1", { uuid := "u1" }),
                    ("u3", { uuid := "u3" })]
        = [{ uuid := "u3" }, { uuid := "u1" }, { uuid := "u2" }] := by
  refine ⟨by decide, by decide, by decide⟩

/-- Claim C10: `_receive_signal` cannot raise (it is embedded as a total
function); under the signal's id, every registered subscriber queue receives
its own copy of the body (the entry is `some []` when the id has no
subscribers, so no queue receives anything), and the queues registered under
every other id are untouched — a body received under one id never appears in
a queue registered under a different id. -/
theorem c10_receive_signal_isolation (st : SubHandlerState) (sid body sid' : Json) :
    alookup (receiveSignal st sid body).signalQueuesById sid'
      = if sid' = sid
        then some ((defaultGetQueues st.signalQueuesById sid).map
                    (fun q => (q.1, q.2 ++ [body])))
        else alookup st.signalQueuesById sid' := by
  by_cases h : sid' = sid
  · subst h
    simp [receiveSignal, alookup_aput_self]
  · simp [receiveSignal, h, alookup_aput_ne _ _ _ _ h]

/-- Claim C8 (code bug): when the server answers the subscribe POST for
`/recorder:started` with `false`, `subscribe_to_signal` does not fail — the
source constructs `SubscribeError(...)` without `raise`, so the call
completes normally, stores `false` as the path's signal id and registers the
subscriber queue under it (first two conjuncts).  The unsubscribe half
behaves as the claim states: a `false` response to the unsubscribe POST
makes awaiting the handle fail with `UnsubscribeError` (last conjunct). -/
theorem c8_subscribe_error_not_raised :
    (subscribeToSignal initSubHandler "/recorder:started" (Json.jbool false)).2.1
        = [SigPost.subscribePost "/recorder:started"]
    ∧ alookup (subscribeToSignal initSubHandler "/recorder:started"
          (Json.jbool false)).1.signalQueuesById (Json.jbool false)
        = some [(1, [])]
    ∧ unsubscribeToSignal
          (subscribeToSignal initSubHandler "/recorder:started" (Json.jbool false)).1
          "/recorder:started" (Json.jbool false) 1 false
        = .error .unsubscribeFailed := by
  refine ⟨by decide, by decide, by rfl⟩

/-- Claim C9, counterexample: a stream has seen an SPS (payload `[0x67]`,
type 7); an FU-A fragment `[0x7C, 0x05, 0xAA]` (type 28, S=0, E=0) then
arrives with no assembly in progress.  The demuxer does not drop it and
continue: reading the never-assigned `_nal_unit_builder` raises
`AttributeError`, the demuxer task dies (`true` in the result), and the
following PPS packet `[0x68]` is never processed — only the SPS was ever
emitted. -/
theorem c9_counterexample :
    demuxRun initDemux [([103], none), ([124, 5, 170], none), ([104], none)]
      = ({ spsOrPpsReceived := true, nalUnitBuilder := none },
         [([103], none)], true) := by
  decide

/-- Claim C9, amended: for an FU-A fragment with S=0 and E=0 arriving on a
video stream when no fragment assembly is in progress — if parameter sets
have been seen (so the fragment reaches the FU-A branch) and no start
fragment has ever assigned `_nal_unit_builder`, the demuxer does not drop
the fragment and continue: it raises `AttributeError` reading the unset
builder and the task terminates without processing any subsequent RTP
packet.  Only before any SPS/PPS has been seen is the fragment dropped with
processing continuing (second conjunct). -/
theorem c9_orphan_fragment_amended (st : DemuxState) (p : List Nat) (ts : Option ℚ)
    (hlen : 2 ≤ p.length) (ht : nalTypeOf p = 28) (hs : fuS p = 0)
    (he : fuE p = 0) :
    (st.spsOrPpsReceived = true → st.nalUnitBuilder = none →
      demuxStep st p ts = none
      ∧ ∀ rest, demuxRun st ((p, ts) :: rest) = (st, [], true))
    ∧ (st.spsOrPpsReceived = false → demuxStep st p ts = some (st, [])) := by
  have h1 : ¬ p.length < 1 := by omega
  have h2 : ¬ p.length < 2 := by omega
  constructor
  · intro hsps hb
    have hstep : demuxStep st p ts = none := by
      simp [demuxStep, h1, h2, ht, hs, hb, hsps]
    refine ⟨hstep, fun rest => ?_⟩
    simp [demuxRun, hstep]
  · intro hsps
    simp [demuxStep, h1, ht, hsps]

/-- Witness for `c9_orphan_fragment_amended` at the concrete orphan fragment
`[0x7C, 0x05, 0xAA]` and the post-SPS state. -/
theorem c9_orphan_fragment_witness :
    demuxStep { spsOrPpsReceived := true, nalUnitBuilder := none }
      [124, 5, 170] none = none :=
  ((c9_orphan_fragment_amended
      { spsOrPpsReceived := true, nalUnitBuilder := none } [124, 5, 170] none
      (by decide) (by decide) (by decide) (by decide)).1 rfl rfl).1

/-- Claim C1, counterexample: the receiver task reads a message whose JSON
shape is none of the three valid shapes (here `{"foo": null}`), followed by
a well-formed signal message.  The receiver does not continue: the invalid
message makes it raise `InvalidResponseError` (after logging), so only one
iteration runs and the signal message is never processed — whereas the same
signal message is processed when it arrives first (second conjunct). -/
theorem c1_counterexample :
    (receiverRun initConn
        [Json.jobj (jsonObjOfList [("foo", Json.jnull)]),
         Json.jobj (jsonObjOfList
           [("signal", Json.jstr "s1"), ("body", Json.jarr JsonArr.nil)])]).2
      = [ReceiverOutcome.invalidResponseRaised]
    ∧ (receiverRun initConn
        [Json.jobj (jsonObjOfList
           [("signal", Json.jstr "s1"), ("body", Json.jarr JsonArr.nil)])]).2
      = [ReceiverOutcome.signalDelivered] := by
  refine ⟨by decide, by decide⟩

/-- Claim C1, amended: for every message whose JSON shape is none of the
three valid shapes, the receiver logs it and raises `InvalidResponseError`,
which terminates the receiver task — subsequent messages are not processed.
The pending-request map and the subscription registry are left unchanged
(the whole connection state is returned as it was). -/
theorem c1_invalid_message_amended (st : ConnState) (m : Json)
    (hm : validShape m = false) :
    receiverStep st m = (st, ReceiverOutcome.invalidResponseRaised)
    ∧ ∀ rest, receiverRun st (m :: rest)
        = (st, [ReceiverOutcome.invalidResponseRaised]) := by
  have main : receiverStep st m = (st, ReceiverOutcome.invalidResponseRaised) := by
    cases m with
    | jobj kvs =>
        rcases hid : kvs.find "id" with _ | vid <;>
          rcases hbody : kvs.find "body" with _ | vb <;>
            rcases herr : kvs.find "error" with _ | ve <;>
              rcases hmsg : kvs.find "message" with _ | vm <;>
                rcases hsig : kvs.find "signal" with _ | vs <;>
                  simp_all [receiverStep, validShape, Json.hasKey]
    | jnull => rfl
    | jbool b => rfl
    | jnum n => rfl
    | jstr s => rfl
    | jarr xs => rfl
  refine ⟨main, fun rest => ?_⟩
  simp [receiverRun, main, ReceiverOutcome.continues]

/-- Witness for `c1_invalid_message_amended` at the concrete invalid message
`{"foo": null}` and the fresh connection state. -/
theorem c1_invalid_message_witness :
    receiverStep initConn (Json.jobj (jsonObjOfList [("foo", Json.jnull)]))
      = (initConn, ReceiverOutcome.invalidResponseRaised) :=
  (c1_invalid_message_amended initConn
    (Json.jobj (jsonObjOfList [("foo", Json.jnull)])) (by decide)).1

theorem srStateOf_handleRtp (st : StreamState) (p : RtpPacket) :
    srStateOf (handleRtp st p) = srStateOf st := rfl

theorem srStateOf_handleRtcp (st : StreamState) (r : RtcpPacket) :
    srStateOf (handleRtcp st r)
      = match r.senderReport with
        | some sr => some sr
        | none => srStateOf st := by
  cases hr : r.senderReport with
  | none =>
      simp only [handleRtcp, hr]
      split <;> rfl
  | some sr =>
      simp only [handleRtcp, hr, srStateOf]

theorem srStateOf_runStream (evs : List StreamEv) : ∀ st : StreamState,
    srStateOf (runStream st evs)
      = evs.foldl
          (fun acc e =>
            match e with
            | .rtcpEv r =>
                match r.senderReport with
                | some sr => some sr
                | none => acc
            | .rtpEv _ => acc)
          (srStateOf st) := by
  induction evs with
  | nil => intro st; rfl
  | cons e rest ih =>
      intro st
      cases e with
      | rtpEv p =>
          simpa [runStream, srStateOf_handleRtp] using ih (handleRtp st p)
      | rtcpEv r =>
          have := ih (handleRtcp st r)
          simp only [runStream, List.foldl] at this ⊢
          rw [this, srStateOf_handleRtcp]

theorem handleRtp_rtpQueue (st : StreamState) (p : RtpPacket) :
    (handleRtp st p).rtpQueue
      = st.rtpQueue
        ++ [(p, (srStateOf st).map
              (fun sr => sr.ntp + ((p.ts - sr.ts : Int) : ℚ) / timestampGranularity))] := by
  unfold handleRtp srStateOf
  cases h1 : st.lastNtpTime <;> cases h2 : st.lastRtcpTimestamp <;> simp [h1, h2]

/-- Claim C7: for every RTP packet arriving on a stream after any history of
packet arrivals — if an RTCP sender report has been processed, the packet is
enqueued on the RTP queue with timestamp
`last_ntp + (rtp.ts - last_rtcp_ts) / 90000` computed from the most recent
sender report; if no sender report has yet been processed (`lastSR evs =
none`), it is enqueued with timestamp `None`. -/
theorem c7_rtp_ntp_timestamp (evs : List StreamEv) (p : RtpPacket) :
    (runStream initStream (evs ++ [StreamEv.rtpEv p])).rtpQueue
      = (runStream initStream evs).rtpQueue
        ++ [(p, (lastSR evs).map
              (fun sr => sr.ntp + ((p.ts - sr.ts : Int) : ℚ) / timestampGranularity))] := by
  have hfold : runStream initStream (evs ++ [StreamEv.rtpEv p])
      = handleRtp (runStream initStream evs) p := by
    simp [runStream, List.foldl_append]
  have hsr : srStateOf (runStream initStream evs) = lastSR evs := by
    simpa [lastSR, srStateOf, initStream] using srStateOf_runStream evs initStream
  rw [hfold, handleRtp_rtpQueue, hsr]

theorem demuxStep_shape (st : DemuxState) (p : List Nat) (ts : Option ℚ)
    (st' : DemuxState) (out : List (List Nat × Option ℚ))
    (h : demuxStep st p ts = some (st', out)) :
    (st'.spsOrPpsReceived = true ∧ out = [(p, ts)]
        ∧ (nalTypeOf p = 7 ∨ nalTypeOf p = 8))
    ∨ (out = [] ∧ st'.spsOrPpsReceived = st.spsOrPpsReceived)
    ∨ (st.spsOrPpsReceived = true ∧ st'.spsOrPpsReceived = true
        ∧ ∃ w, out = [w]) := by
  by_cases hl1 : p.length < 1
  · simp [demuxStep, hl1] at h
  by_cases ht78 : nalTypeOf p = 7 ∨ nalTypeOf p = 8
  · simp [demuxStep, hl1, ht78] at h
    obtain ⟨h1, h2⟩ := h
    subst h1
    subst h2
    exact Or.inl ⟨rfl, rfl, ht78⟩
  by_cases hsps : st.spsOrPpsReceived = false
  · simp [demuxStep, hl1, ht78, hsps] at h
    obtain ⟨h1, h2⟩ := h
    subst h1
    subst h2
    exact Or.inr (Or.inl ⟨rfl, rfl⟩)
  have hspsT : st.spsOrPpsReceived = true := by
    cases hb : st.spsOrPpsReceived
    · exact absurd hb hsps
    · rfl
  by_cases ht15 : nalTypeOf p = 1 ∨ nalTypeOf p = 5
  · simp [demuxStep, hl1, ht78, hsps, ht15] at h
    obtain ⟨h1, h2⟩ := h
    subst h1
    subst h2
    exact Or.inr (Or.inr ⟨hspsT, hspsT, (p, ts), rfl⟩)
  by_cases ht28 : nalTypeOf p = 28
  · by_cases hl2 : p.length < 2
    · simp [demuxStep, hl1, ht78, hsps, ht15, ht28, hl2] at h
    by_cases hfs : fuS p ≠ 0
    · simp [demuxStep, hl1, ht78, hsps, ht15, ht28, hl2, hfs] at h
      obtain ⟨h1, h2⟩ := h
      subst h1
      subst h2
      exact Or.inr (Or.inl ⟨rfl, hspsT.symm⟩)
    cases hb : st.nalUnitBuilder with
    | none => simp [demuxStep, hl1, ht78, hsps, ht15, ht28, hl2, hfs, hb] at h
    | some pr =>
        obtain ⟨d, bts⟩ := pr
        by_cases hfe : fuE p ≠ 0
        · simp [demuxStep, hl1, ht78, hsps, ht15, ht28, hl2, hfs, hb, hfe] at h
          obtain ⟨h1, h2⟩ := h
          subst h1
          subst h2
          exact Or.inr (Or.inr ⟨hspsT, rfl, (d ++ fuPayload p, bts), rfl⟩)
        · simp [demuxStep, hl1, ht78, hsps, ht15, ht28, hl2, hfs, hb, hfe] at h
          obtain ⟨h1, h2⟩ := h
          subst h1
          subst h2
          exact Or.inr (Or.inl ⟨rfl, hspsT.symm⟩)
  · simp [demuxStep, hl1, ht78, hsps, ht15, ht28] at h
    obtain ⟨h1, h2⟩ := h
    subst h1
    subst h2
    exact Or.inr (Or.inl ⟨rfl, rfl⟩)

theorem emissionsGated_append_one (acc : List (List Nat × Option ℚ))
    (w : List Nat × Option ℚ) (hacc : emissionsGated acc)
    (hw : (nalTypeOf w.1 = 1 ∨ nalTypeOf w.1 = 5) →
      ∃ v ∈ acc, nalTypeOf v.1 = 7 ∨ nalTypeOf v.1 = 8) :
    emissionsGated (acc ++ [w]) := by
  intro i u hget hu
  by_cases hi : i < acc.length
  · rw [List.getElem?_append] at hget
    simp only [hi, if_pos] at hget
    obtain ⟨j, v, hj, hv, hv78⟩ := hacc i u hget hu
    have hjlen : j < acc.length := lt_trans hj hi
    refine ⟨j, v, hj, ?_, hv78⟩
    rw [List.getElem?_append]
    simp [hjlen, hv]
  · have hle : acc.length ≤ i := Nat.not_lt.mp hi
    have hilen : i < (acc ++ [w]).length := (List.getElem?_eq_some.mp hget).1
    have hieq : i = acc.length := by
      simp only [List.length_append, List.length_singleton] at hilen
      omega
    subst hieq
    rw [List.getElem?_append] at hget
    simp only [lt_self_iff_false, if_false, Nat.sub_self] at hget
    have huw : u = w := by
      simpa using hget.symm
    subst huw
    obtain ⟨v, hvm, hv78⟩ := hw hu
    obtain ⟨j, hj⟩ := List.mem_iff_getElem?.mp hvm
    have hjlen : j < acc.length := (List.getElem?_eq_some.mp hj).1
    refine ⟨j, v, hjlen, ?_, hv78⟩
    rw [List.getElem?_append]
    simp [hjlen, hj]

theorem demuxRun_gated_aux (ps : List (List Nat × Option ℚ)) :
    ∀ (st : DemuxState) (acc : List (List Nat × Option ℚ)),
      (st.spsOrPpsReceived = true →
        ∃ v ∈ acc, nalTypeOf v.1 = 7 ∨ nalTypeOf v.1 = 8) →
      emissionsGated acc →
      emissionsGated (acc ++ (demuxRun st ps).2.1) := by
  induction ps with
  | nil =>
      intro st acc hsps hacc
      simpa [demuxRun] using hacc
  | cons pts rest ih =>
      obtain ⟨p, ts⟩ := pts
      intro st acc hsps hacc
      cases hstep : demuxStep st p ts with
      | none => simpa [demuxRun, hstep] using hacc
      | some pr =>
          obtain ⟨st', stepOut⟩ := pr
          have hout : (demuxRun st ((p, ts) :: rest)).2.1
              = stepOut ++ (demuxRun st' rest).2.1 := by
            simp [demuxRun, hstep]
          rw [hout, ← List.append_assoc]
          rcases demuxStep_shape st p ts st' stepOut hstep with
            ⟨hA1, hA2, hA3⟩ | ⟨hB1, hB2⟩ | ⟨hC1, hC2, w, hC3⟩
          · subst hA2
            apply ih st' (acc ++ [(p, ts)])
            · intro _
              exact ⟨(p, ts), by simp, hA3⟩
            · apply emissionsGated_append_one acc (p, ts) hacc
              intro h15
              rcases hA3 with h78 | h78 <;> rcases h15 with h15x | h15x <;>
                rw [h78] at h15x <;> omega
          · subst hB1
            simp only [List.append_nil]
            apply ih st' acc ?_ hacc
            intro h'
            rw [hB2] at h'
            exact hsps h'
          · subst hC3
            apply ih st' (acc ++ [w])
            · intro _
              obtain ⟨v, hvm, hv78⟩ := hsps hC1
              exact ⟨v, by simp [hvm], hv78⟩
            · apply emissionsGated_append_one acc w hacc
              intro _
              exact hsps hC1

/-- Claim C6: for every video stream and every prefix of its RTP packet
sequence (every packet list processed from the fresh demuxer state), the
demuxer emits a NAL unit of type 1 (non-IDR slice) or type 5 (IDR slice)
only if it has previously emitted at least one NAL unit of type 7 (SPS) or
type 8 (PPS); before that, type 1/5 units are dropped (they do not appear in
the output). -/
theorem c6_slice_requires_paramset (ps : List (List Nat × Option ℚ)) (i : Nat)
    (u : List Nat × Option ℚ)
    (hu : ((demuxRun initDemux ps).2.1)[i]? = some u)
    (h15 : nalTypeOf u.1 = 1 ∨ nalTypeOf u.1 = 5) :
    ∃ (j : Nat) (v : List Nat × Option ℚ), j < i
      ∧ ((demuxRun initDemux ps).2.1)[j]? = some v
      ∧ (nalTypeOf v.1 = 7 ∨ nalTypeOf v.1 = 8) := by
  have h := demuxRun_gated_aux ps initDemux []
    (fun hc => by simp [initDemux] at hc)
    (fun i u hg _ => by simp at hg)
  rw [List.nil_append] at h
  exact h i u hu h15

/-- Witness for `c6_slice_requires_paramset`: after the packet sequence
SPS `[0x67]` then IDR slice `[0x65]`, the slice emitted at index 1 is
preceded by the SPS emitted at index 0. -/
theorem c6_slice_requires_paramset_witness :
    ∃ (j : Nat) (v : List Nat × Option ℚ), j < 1
      ∧ ((demuxRun initDemux [([103], none), ([101], none)]).2.1)[j]? = some v
      ∧ (nalTypeOf v.1 = 7 ∨ nalTypeOf v.1 = 8) :=
  c6_slice_requires_paramset [([103], none), ([101], none)] 1 ([101], none)
    (by decide) (by decide)

theorem mask_shift_roundtrip (x m k : Nat) (hm : ∀ i, i < k → Nat.testBit m i = false) :
    ((x &&& m) >>> k) <<< k = x &&& m := by
  apply Nat.eq_of_testBit_eq
  intro i
  rcases Nat.lt_or_ge i k with hik | hik
  · rw [Nat.testBit_shiftLeft]
    simp only [Nat.not_le.mpr hik, decide_False, Bool.false_and]
    rw [Nat.testBit_and, hm i hik, Bool.and_false]
  · rw [Nat.testBit_shiftLeft, Nat.testBit_shiftRight]
    simp [hik, Nat.add_sub_cancel' hik]

theorem testBit_128_lt (i : Nat) (h : i < 7) : Nat.testBit 128 i = false := by
  have h128 : (128 : Nat) = 2 ^ 7 := by norm_num
  rw [h128, Nat.testBit_two_pow]
  simp
  omega

theorem testBit_96_lt (i : Nat) (h : i < 5) : Nat.testBit 96 i = false := by
  interval_cases i <;> decide

/-- The reconstructed FU-A header byte, written as the source computes it
(`fu_a.header & (F_MASK | NRI_MASK) | fu_a.original_type`), equals the
specification's `(F << 7) | (NRI << 5) | original_type`. -/
theorem fu_header_bits (b0 b1 : Nat) :
    (b0 &&& (128 ||| 96)) ||| (b1 &&& 31)
      = ((b0 &&& 128) >>> 7) <<< 7 ||| ((b0 &&& 96) >>> 5) <<< 5 ||| (b1 &&& 31) := by
  rw [Nat.and_or_distrib_left b0 128 96,
    mask_shift_roundtrip b0 128 7 (fun i h => testBit_128_lt i h),
    mask_shift_roundtrip b0 96 5 (fun i h => testBit_96_lt i h)]

theorem demuxStep_fuStart (st : DemuxState) (p : List Nat) (ts : Option ℚ)
    (hsps : st.spsOrPpsReceived = true) (hlen : 2 ≤ p.length)
    (ht : nalTypeOf p = 28) (hs : fuS p ≠ 0) :
    demuxStep st p ts
      = some ({ st with nalUnitBuilder := some (fromFuA p, ts) }, []) := by
  have h1 : ¬ p.length < 1 := by omega
  have h2 : ¬ p.length < 2 := by omega
  simp [demuxStep, h1, h2, ht, hs, hsps]

theorem demuxStep_fuContinuation (st : DemuxState) (p : List Nat) (ts : Option ℚ)
    (d : List Nat) (bts : Option ℚ)
    (hsps : st.spsOrPpsReceived = true) (hb : st.nalUnitBuilder = some (d, bts))
    (hlen : 2 ≤ p.length) (ht : nalTypeOf p = 28) (hs : fuS p = 0) :
    demuxStep st p ts
      = some ({ st with nalUnitBuilder := some (d ++ fuPayload p, bts) },
              if fuE p ≠ 0 then [(d ++ fuPayload p, bts)] else []) := by
  have h1 : ¬ p.length < 1 := by omega
  have h2 : ¬ p.length < 2 := by omega
  by_cases he : fuE p ≠ 0 <;> simp [demuxStep, h1, h2, ht, hs, hsps, hb, he]

theorem demuxRun_fuTail (mids : List (List Nat × Option ℚ)) :
    ∀ (st : DemuxState) (d : List Nat) (bts : Option ℚ) (fl : List Nat)
      (tsl : Option ℚ),
      st.spsOrPpsReceived = true →
      st.nalUnitBuilder = some (d, bts) →
      (∀ q ∈ mids, 2 ≤ q.1.length ∧ nalTypeOf q.1 = 28 ∧ fuS q.1 = 0 ∧ fuE q.1 = 0) →
      2 ≤ fl.length → nalTypeOf fl = 28 → fuS fl = 0 → fuE fl ≠ 0 →
      demuxRun st (mids ++ [(fl, tsl)])
        = ({ spsOrPpsReceived := true,
             nalUnitBuilder :=
               some (d ++ ((mids.map fun q => fuPayload q.1).join ++ fuPayload fl), bts) },
           [(d ++ ((mids.map fun q => fuPayload q.1).join ++ fuPayload fl), bts)],
           false) := by
  induction mids with
  | nil =>
      intro st d bts fl tsl hsps hb hmids hfll hflt hfls hfle
      have hstep := demuxStep_fuContinuation st fl tsl d bts hsps hb hfll hflt hfls
      rw [if_pos hfle] at hstep
      obtain ⟨spsv, bldv⟩ := st
      simp only [DemuxState.spsOrPpsReceived] at hsps
      subst hsps
      simp [demuxRun, hstep]
  | cons m mids ih =>
      obtain ⟨q, qts⟩ := m
      intro st d bts fl tsl hsps hb hmids hfll hflt hfls hfle
      obtain ⟨hq1, hq2, hq3, hq4⟩ := hmids (q, qts) (List.mem_cons_self _ _)
      have hstep := demuxStep_fuContinuation st q qts d bts hsps hb hq1 hq2 hq3
      rw [if_neg (by simp [hq4])] at hstep
      have hmids' : ∀ r ∈ mids,
          2 ≤ r.1.length ∧ nalTypeOf r.1 = 28 ∧ fuS r.1 = 0 ∧ fuE r.1 = 0 :=
        fun r hr => hmids r (List.mem_cons_of_mem _ hr)
      have hih := ih { st with nalUnitBuilder := some (d ++ fuPayload q, bts) }
        (d ++ fuPayload q) bts fl tsl (by simpa using hsps) rfl hmids' hfll hflt
        hfls hfle
      simp only [List.cons_append]
      simp [demuxRun, hstep, hih, List.append_assoc]

/-- Claim C2: for every sequence of FU-A fragments on a video stream (with
parameter sets seen, so the FU-A branch is reached) starting with a fragment
with S=1 and ending with the next fragment with E=1 — middle fragments have
S=0 and E=0 — the demuxer emits exactly one NAL unit, carrying the start
fragment's timestamp, whose header byte equals
`(F <<< 7) ||| (NRI <<< 5) ||| original_type` of the FU-A fragments (taken
from the start fragment's FU indicator and FU header; the fragments of one
fragmentation unit share these fields) and whose payload is the
concatenation, in arrival order, of the fragments' payloads (second
conjunct: the emitted data is that header byte followed by that
concatenation). -/
theorem c2_fu_a_reassembly (st : DemuxState) (f0 fl : List Nat)
    (ts0 tsl : Option ℚ) (mids : List (List Nat × Option ℚ))
    (hsps : st.spsOrPpsReceived = true)
    (hf0l : 2 ≤ f0.length) (hf0t : nalTypeOf f0 = 28) (hf0s : fuS f0 ≠ 0)
    (hmids : ∀ q ∈ mids, 2 ≤ q.1.length ∧ nalTypeOf q.1 = 28 ∧ fuS q.1 = 0 ∧ fuE q.1 = 0)
    (hfll : 2 ≤ fl.length) (hflt : nalTypeOf fl = 28) (hfls : fuS fl = 0)
    (hfle : fuE fl ≠ 0) :
    demuxRun st ((f0, ts0) :: (mids ++ [(fl, tsl)]))
      = ({ spsOrPpsReceived := true,
           nalUnitBuilder := some (fromFuA f0
             ++ ((mids.map fun q => fuPayload q.1).join ++ fuPayload fl), ts0) },
         [(fromFuA f0 ++ ((mids.map fun q => fuPayload q.1).join ++ fuPayload fl), ts0)],
         false)
    ∧ fromFuA f0 ++ ((mids.map fun q => fuPayload q.1).join ++ fuPayload fl)
        = (nalF f0 <<< 7 ||| nalNRI f0 <<< 5 ||| fuOriginalType f0)
          :: (fuPayload f0 ++ ((mids.map fun q => fuPayload q.1).join ++ fuPayload fl)) := by
  constructor
  · have hstep := demuxStep_fuStart st f0 ts0 hsps hf0l hf0t hf0s
    have hrun := demuxRun_fuTail mids
      { st with nalUnitBuilder := some (fromFuA f0, ts0) }
      (fromFuA f0) ts0 fl tsl (by simpa using hsps) rfl hmids hfll hflt hfls hfle
    simp only [demuxRun, hstep]
    rw [hrun]
    rfl
  · show (((f0.headD 0 &&& (128 ||| 96)) ||| fuOriginalType f0) :: fuPayload f0)
        ++ ((mids.map fun q => fuPayload q.1).join ++ fuPayload fl) = _
    rw [List.cons_append]
    unfold fuOriginalType nalF nalNRI
    rw [fu_header_bits]

/-- Witness for `c2_fu_a_reassembly`: the spec's literal scenario — three
FU-A fragments `[0x7C, 0x85, 1]`, `[0x7C, 0x05, 2]`, `[0x7C, 0x45, 3]`
(F=0, NRI=3, type 28; S/E = 10, 00, 01; original type 5) yield exactly one
NAL unit with header byte `0x65` and payload `[1, 2, 3]`. -/
theorem c2_fu_a_reassembly_witness :
    demuxRun { spsOrPpsReceived := true, nalUnitBuilder := none }
        [([124, 133, 1], none), ([124, 5, 2], none), ([124, 69, 3], none)]
      = ({ spsOrPpsReceived := true, nalUnitBuilder := some ([101, 1, 2, 3], none) },
         [([101, 1, 2, 3], none)], false) := by
  have h := (c2_fu_a_reassembly
    { spsOrPpsReceived := true, nalUnitBuilder := none }
    [124, 133, 1] [124, 69, 3] none none [([124, 5, 2], none)]
    rfl (by decide) (by decide) (by decide)
    (by
      intro q hq
      rw [List.mem_singleton] at hq
      subst hq
      exact ⟨by decide, by decide, by decide, by decide⟩)
    (by decide) (by decide) (by decide) (by decide)).1
  exact h.trans (by decide)

theorem alookup_eq_none_of_not_mem_keys {α β : Type} [DecidableEq α]
    (l : List (α × β)) (k : α) (h : k ∉ l.map Prod.fst) : alookup l k = none := by
  induction l with
  | nil => rfl
  | cons hd tl ih =>
      obtain ⟨k₀, v₀⟩ := hd
      simp only [List.map_cons, List.mem_cons] at h
      push_neg at h
      simp only [alookup]
      rw [if_neg (fun hh => h.1 hh.symm), ih h.2]

theorem receiverResolve_pres (st : ConnState) (mid mbody : Json) :
    (receiverResolve st mid mbody).1.futureMessages.map Prod.fst
        = st.futureMessages.map Prod.fst
    ∧ (receiverResolve st mid mbody).1.messageCount = st.messageCount := by
  rcases hm : jsonIdKey mid with _ | k
  · simp [receiverResolve, hm]
  · rcases hl : alookup st.futureMessages k with _ | fv
    · simp [receiverResolve, hm, hl]
    · cases fv with
      | pending =>
          simp only [receiverResolve, hm, hl]
          refine ⟨keys_aput_of_mem _ _ _ ?_, trivial⟩
          rw [hl]
          rfl
      | resolved body => simp [receiverResolve, hm, hl]
      | failedGlasses c msg => simp [receiverResolve, hm, hl]

theorem receiverError_pres (st : ConnState) (mid ecode emsg : Json) :
    (receiverError st mid ecode emsg).1.futureMessages.map Prod.fst
        = st.futureMessages.map Prod.fst
    ∧ (receiverError st mid ecode emsg).1.messageCount = st.messageCount := by
  rcases hm : jsonIdKey mid with _ | k
  · simp [receiverError, hm]
  · rcases hl : alookup st.futureMessages k with _ | fv
    · simp [receiverError, hm, hl]
    · cases fv with
      | pending =>
          simp only [receiverError, hm, hl]
          refine ⟨keys_aput_of_mem _ _ _ ?_, trivial⟩
          rw [hl]
          rfl
      | resolved body => simp [receiverError, hm, hl]
      | failedGlasses c msg => simp [receiverError, hm, hl]

theorem receiverStep_futures (st : ConnState) (m : Json) :
    (receiverStep st m).1.futureMessages.map Prod.fst
        = st.futureMessages.map Prod.fst
    ∧ (receiverStep st m).1.messageCount = st.messageCount := by
  cases m with
  | jobj kvs =>
      rcases h1 : kvs.find "id" with _ | vid <;>
        rcases h2 : kvs.find "body" with _ | vb <;>
          rcases h3 : kvs.find "error" with _ | ve <;>
            rcases h4 : kvs.find "message" with _ | vm <;>
              rcases h5 : kvs.find "signal" with _ | vs <;>
                simp only [receiverStep, h1, h2, h3, h4, h5] <;>
                  first
                    | trivial
                    | exact receiverResolve_pres st _ _
                    | exact receiverError_pres st _ _ _
  | jnull => exact ⟨rfl, rfl⟩
  | jbool b => exact ⟨rfl, rfl⟩
  | jnum n => exact ⟨rfl, rfl⟩
  | jstr s => exact ⟨rfl, rfl⟩
  | jarr xs => exact ⟨rfl, rfl⟩

theorem runConn_keys_aux (ops : List ConnOp) : ∀ st st' : ConnState,
    runConn st ops = some st' →
    st.futureMessages.map Prod.fst
      = (List.range' 1 st.messageCount).map (fun n : Nat => (n : Int)) →
    st'.futureMessages.map Prod.fst
      = (List.range' 1 st'.messageCount).map (fun n : Nat => (n : Int)) := by
  induction ops with
  | nil =>
      intro st st' h hinv
      cases h
      exact hinv
  | cons op rest ih =>
      intro st st' h hinv
      cases op with
      | sendReq =>
          refine ih _ _ h ?_
          have hfresh : alookup st.futureMessages ((st.messageCount + 1 : Nat) : Int)
              = none := by
            apply alookup_eq_none_of_not_mem_keys
            rw [hinv]
            intro hmem
            simp only [List.mem_map, List.mem_range'_1] at hmem
            obtain ⟨k, hk, hkeq⟩ := hmem
            omega
          show (aput st.futureMessages ((st.messageCount + 1 : Nat) : Int)
              FutureVal.pending).map Prod.fst
            = (List.range' 1 (st.messageCount + 1)).map (fun n : Nat => (n : Int))
          rw [keys_aput_of_not_mem _ _ _ hfresh, hinv]
          have hconcat : List.range' 1 (st.messageCount + 1)
              = List.range' 1 st.messageCount ++ [1 + st.messageCount] := by
            simpa using @List.range'_concat 1 1 st.messageCount
          rw [hconcat]
          simp [Nat.add_comm]
      | recvMsg m =>
          simp only [runConn] at h
          rcases hstep : receiverStep st m with ⟨st1, o⟩
          rw [hstep] at h
          by_cases hc : o.continues
          · simp only [hc, if_pos] at h
            refine ih _ _ h ?_
            have hkeys := receiverStep_futures st m
            rw [hstep] at hkeys
            simp only [] at hkeys
            rw [hkeys.1, hkeys.2, hinv]
          · simp [hc] at h

/-- Claim C4, counterexample: a `require` call on a fresh connection is
assigned id 1 and registers a pending future; the response
`{"id": 1, "body": null}` resolves the future — the moment after which
`require` returns its result — yet id 1 is still in `_future_messages`
(holding the resolved future): the id is not removed from the map before
`require` returns. -/
theorem c4_counterexample :
    alookup ((receiverStep (requireSend initConn).1
        (Json.jobj (jsonObjOfList
          [("id", Json.jnum 1), ("body", Json.jnull)]))).1).futureMessages 1
      = some (FutureVal.resolved Json.jnull)
    ∧ alookup ((receiverStep (requireSend initConn).1
        (Json.jobj (jsonObjOfList
          [("id", Json.jnum 1), ("body", Json.jnull)]))).1).futureMessages 1
      ≠ none := by
  refine ⟨by decide, by decide⟩

/-- Claim C4, amended: for every call to `require`, the freshly assigned
message id is present in the pending-request map (`_future_messages`)
exactly once while the request is in flight, but the id is never removed:
in every state reachable by sends and received messages the map's keys are
exactly `1 .. _message_count` in order (so each assigned id occurs exactly
once and entries persist after resolution), and processing any received
message leaves the key list unchanged. -/
theorem c4_pending_ids_amended (ops : List ConnOp) (st : ConnState) (m : Json)
    (h : runConn initConn ops = some st) :
    st.futureMessages.map Prod.fst
        = (List.range' 1 st.messageCount).map (fun n : Nat => (n : Int))
    ∧ (receiverStep st m).1.futureMessages.map Prod.fst
        = st.futureMessages.map Prod.fst := by
  refine ⟨runConn_keys_aux ops initConn st h (by rfl), (receiverStep_futures st m).1⟩

/-- Witness for `c4_pending_ids_amended`: one `require` send followed by its
response; the pending map's key list is exactly `[1]` and handling a further
response message does not change it. -/
theorem c4_pending_ids_witness :
    ({ messageCount := 1,
       futureMessages := [((1 : Int), FutureVal.resolved Json.jnull)],
       subHandler := initSubHandler } : ConnState).futureMessages.map Prod.fst
        = (List.range' 1 1).map (fun n : Nat => (n : Int))
    ∧ (receiverStep
        { messageCount := 1,
          futureMessages := [((1 : Int), FutureVal.resolved Json.jnull)],
          subHandler := initSubHandler }
        (Json.jobj (jsonObjOfList
          [("id", Json.jnum 1), ("body", Json.jnull)]))).1.futureMessages.map Prod.fst
        = ({ messageCount := 1,
             futureMessages := [((1 : Int), FutureVal.resolved Json.jnull)],
             subHandler := initSubHandler } : ConnState).futureMessages.map Prod.fst :=
  c4_pending_ids_amended
    [ConnOp.sendReq,
     ConnOp.recvMsg (Json.jobj (jsonObjOfList
       [("id", Json.jnum 1), ("body", Json.jnull)]))]
    { messageCount := 1,
      futureMessages := [((1 : Int), FutureVal.resolved Json.jnull)],
      subHandler := initSubHandler }
    (Json.jobj (jsonObjOfList [("id", Json.jnum 1), ("body", Json.jnull)]))
    (by decide)

theorem alookup_isSome_iff_mem_keys {α β : Type} [DecidableEq α]
    (l : List (α × β)) (k : α) :
    (alookup l k).isSome ↔ k ∈ l.map Prod.fst := by
  induction l with
  | nil => simp [alookup]
  | cons hd tl ih =>
      obtain ⟨k₀, v₀⟩ := hd
      simp only [List.map_cons, List.mem_cons, alookup]
      by_cases h : k₀ = k
      · subst h
        simp
      · rw [if_neg h, ih]
        constructor
        · intro hm
          exact Or.inr hm
        · rintro (hc | hm)
          · exact absurd hc.symm h
          · exact hm

theorem aerase_cons_ne {α β : Type} [DecidableEq α] (k₀ : α) (v₀ : β)
    (tl : List (α × β)) (k : α) (h : ¬ k₀ = k) :
    aerase ((k₀, v₀) :: tl) k = (k₀, v₀) :: aerase tl k := by
  simp [aerase, List.filter, h]

theorem aerase_cons_self {α β : Type} [DecidableEq α] (v₀ : β)
    (tl : List (α × β)) (k : α) :
    aerase ((k, v₀) :: tl) k = aerase tl k := by
  simp [aerase, List.filter]

theorem aerase_eq_of_not_mem {α β : Type} [DecidableEq α]
    (l : List (α × β)) (k : α) (h : k ∉ l.map Prod.fst) : aerase l k = l := by
  induction l with
  | nil => rfl
  | cons hd tl ih =>
      obtain ⟨k₀, v₀⟩ := hd
      simp only [List.map_cons, List.mem_cons] at h
      push_neg at h
      rw [aerase_cons_ne k₀ v₀ tl k (fun hh => h.1 hh.symm), ih h.2]

theorem aerase_length_succ {α β : Type} [DecidableEq α]
    (l : List (α × β)) (k : α) (hmem : (alookup l k).isSome)
    (hnd : (l.map Prod.fst).Nodup) :
    (aerase l k).length + 1 = l.length := by
  induction l with
  | nil => simp [alookup] at hmem
  | cons hd tl ih =>
      obtain ⟨k₀, v₀⟩ := hd
      simp only [List.map_cons, List.nodup_cons] at hnd
      by_cases h : k₀ = k
      · subst h
        rw [aerase_cons_self v₀ tl k₀, aerase_eq_of_not_mem tl k₀ hnd.1]
        simp
      · have hmem' : (alookup tl k).isSome := by
          simpa [alookup, h] using hmem
        have hih := ih hmem' hnd.2
        rw [aerase_cons_ne k₀ v₀ tl k h]
        simp only [List.length_cons]
        omega

theorem alookup_mem {α β : Type} [DecidableEq α] (l : List (α × β)) (k : α)
    (v : β) (h : alookup l k = some v) : (k, v) ∈ l := by
  induction l with
  | nil => simp [alookup] at h
  | cons hd tl ih =>
      obtain ⟨k₀, v₀⟩ := hd
      by_cases hk : k₀ = k
      · subst hk
        simp only [alookup, if_pos rfl] at h
        cases h
        exact List.mem_cons_self _ _
      · simp only [alookup, if_neg hk] at h
        exact List.mem_cons_of_mem _ (ih h)

theorem aput_ne_nil {α β : Type} [DecidableEq α] (l : List (α × β)) (k : α)
    (v : β) : aput l k v ≠ [] := by
  cases l with
  | nil => simp [aput]
  | cons hd tl =>
      obtain ⟨k₀, v₀⟩ := hd
      by_cases h : k₀ = k <;> simp [aput, h]

theorem defaultGetQueues_aput_self (m : List (Json × List (Nat × List Json)))
    (sid : Json) (x : List (Nat × List Json)) :
    defaultGetQueues (aput m sid x) sid = x := by
  simp [defaultGetQueues, alookup_aput_self]

theorem defaultGetQueues_aput_ne (m : List (Json × List (Nat × List Json)))
    (sid sid' : Json) (x : List (Nat × List Json)) (h : sid' ≠ sid) :
    defaultGetQueues (aput m sid x) sid' = defaultGetQueues m sid' := by
  simp [defaultGetQueues, alookup_aput_ne _ _ _ _ h]

theorem keys_aput_sub {α β : Type} [DecidableEq α] (l : List (α × β)) (k : α)
    (v : β) (k' : α) (h : k' ∈ (aput l k v).map Prod.fst) :
    k' = k ∨ k' ∈ l.map Prod.fst := by
  by_cases hmem : (alookup l k).isSome
  · rw [keys_aput_of_mem _ _ _ hmem] at h
    exact Or.inr h
  · rw [keys_aput_of_not_mem _ _ _ (by
      cases hl : alookup l k
      · rfl
      · rw [hl] at hmem
        exact absurd rfl hmem)] at h
    rcases List.mem_append.mp h with h1 | h2
    · exact Or.inr h1
    · exact Or.inl (by simpa using h2)

theorem keys_aerase_sublist {α β : Type} [DecidableEq α] (l : List (α × β))
    (k : α) : List.Sublist ((aerase l k).map Prod.fst) (l.map Prod.fst) :=
  List.Sublist.map Prod.fst (List.filter_sublist l)

theorem subscribeToSignal_inv (st : SubHandlerState) (uri : String) (ssid : Json)
    (hinv : SubInv st)
    (hguard : alookup st.signalIdByUri uri = none →
      ∀ u, alookup st.signalIdByUri u ≠ some ssid) :
    SubInv (subscribeToSignal st uri ssid).1 := by
  obtain ⟨h1, h3, h4, h5⟩ := hinv
  cases hlk : alookup st.signalIdByUri uri with
  | some sid =>
      simp only [subscribeToSignal, hlk]
      refine ⟨?_, ?_, ?_, ?_⟩
      · intro u s hu
        by_cases hs : s = sid
        · subst hs
          rw [defaultGetQueues_aput_self]
          exact aput_ne_nil _ _ _
        · rw [defaultGetQueues_aput_ne _ _ _ _ hs]
          exact h1 u s hu
      · exact h3
      · intro s
        by_cases hs : s = sid
        · subst hs
          rw [defaultGetQueues_aput_self]
          have hfresh : (st.subscriptionCount + 1)
              ∉ (defaultGetQueues st.signalQueuesById s).map Prod.fst := by
            intro hm
            have := h5 s _ hm
            omega
          rw [keys_aput_of_not_mem _ _ _
            (alookup_eq_none_of_not_mem_keys _ _ hfresh)]
          refine List.Nodup.append (h4 s) (List.nodup_singleton _) ?_
          intro a ha hb
          rw [List.mem_singleton] at hb
          subst hb
          exact hfresh ha
        · rw [defaultGetQueues_aput_ne _ _ _ _ hs]
          exact h4 s
      · intro s k hk
        show k ≤ st.subscriptionCount + 1
        by_cases hs : s = sid
        · subst hs
          rw [defaultGetQueues_aput_self] at hk
          rcases keys_aput_sub _ _ _ _ hk with hke | hke
          · omega
          · have := h5 s k hke
            omega
        · rw [defaultGetQueues_aput_ne _ _ _ _ hs] at hk
          have := h5 s k hk
          omega
  | none =>
      have hnos : ∀ u, alookup st.signalIdByUri u ≠ some ssid := hguard hlk
      simp only [subscribeToSignal, hlk]
      refine ⟨?_, ?_, ?_, ?_⟩
      · intro u s hu
        by_cases hu2 : u = uri
        · subst hu2
          rw [alookup_aput_self] at hu
          cases hu
          rw [defaultGetQueues_aput_self]
          exact aput_ne_nil _ _ _
        · rw [alookup_aput_ne _ _ _ _ hu2] at hu
          have hss : s ≠ ssid := fun hcon => hnos u (hcon ▸ hu)
          rw [defaultGetQueues_aput_ne _ _ _ _ hss]
          exact h1 u s hu
      · intro u1 u2 s hm1 hm2
        by_cases hua : u1 = uri <;> by_cases hub : u2 = uri
        · rw [hua, hub]
        · subst hua
          rw [alookup_aput_self] at hm1
          cases hm1
          rw [alookup_aput_ne _ _ _ _ hub] at hm2
          exact absurd hm2 (hnos u2)
        · subst hub
          rw [alookup_aput_self] at hm2
          cases hm2
          rw [alookup_aput_ne _ _ _ _ hua] at hm1
          exact absurd hm1 (hnos u1)
        · rw [alookup_aput_ne _ _ _ _ hua] at hm1
          rw [alookup_aput_ne _ _ _ _ hub] at hm2
          exact h3 u1 u2 s hm1 hm2
      · intro s
        by_cases hs : s = ssid
        · subst hs
          rw [defaultGetQueues_aput_self]
          have hfresh : (st.subscriptionCount + 1)
              ∉ (defaultGetQueues st.signalQueuesById s).map Prod.fst := by
            intro hm
            have := h5 s _ hm
            omega
          rw [keys_aput_of_not_mem _ _ _
            (alookup_eq_none_of_not_mem_keys _ _ hfresh)]
          refine List.Nodup.append (h4 s) (List.nodup_singleton _) ?_
          intro a ha hb
          rw [List.mem_singleton] at hb
          subst hb
          exact hfresh ha
        · rw [defaultGetQueues_aput_ne _ _ _ _ hs]
          exact h4 s
      · intro s k hk
        show k ≤ st.subscriptionCount + 1
        by_cases hs : s = ssid
        · subst hs
          rw [defaultGetQueues_aput_self] at hk
          rcases keys_aput_sub _ _ _ _ hk with hke | hke
          · omega
          · have := h5 s k hke
            omega
        · rw [defaultGetQueues_aput_ne _ _ _ _ hs] at hk
          have := h5 s k hk
          omega

theorem unsubscribeToSignal_ok_mem (st : SubHandlerState) (uri : String)
    (sid : Json) (subId : Nat) (serverOk : Bool) (st2 : SubHandlerState)
    (posts : List SigPost)
    (h : unsubscribeToSignal st uri sid subId serverOk = .ok (st2, posts)) :
    (alookup (defaultGetQueues st.signalQueuesById sid) subId).isSome := by
  by_cases hq : (alookup (defaultGetQueues st.signalQueuesById sid) subId).isSome
  · exact hq
  · simp [unsubscribeToSignal, hq] at h

theorem unsubscribeToSignal_ok_empty (st : SubHandlerState) (uri : String)
    (sid : Json) (subId : Nat) (serverOk : Bool) (st2 : SubHandlerState)
    (posts : List SigPost)
    (h : unsubscribeToSignal st uri sid subId serverOk = .ok (st2, posts))
    (hlen : (aerase (defaultGetQueues st.signalQueuesById sid) subId).length = 0) :
    st2 = { subscriptionCount := st.subscriptionCount,
            signalIdByUri := aerase st.signalIdByUri uri,
            signalQueuesById := aput st.signalQueuesById sid
              (aerase (defaultGetQueues st.signalQueuesById sid) subId) }
    ∧ posts = [SigPost.unsubscribePost uri sid] := by
  have hq := unsubscribeToSignal_ok_mem st uri sid subId serverOk st2 posts h
  by_cases hok : serverOk
  · by_cases hmap : (alookup st.signalIdByUri uri).isSome
    · simp [unsubscribeToSignal, hq, hlen, hok, hmap] at h
      exact ⟨h.1.symm, h.2.symm⟩
    · simp [unsubscribeToSignal, hq, hlen, hok, hmap] at h
  · simp [unsubscribeToSignal, hq, hlen, hok] at h

theorem unsubscribeToSignal_ok_nonempty (st : SubHandlerState) (uri : String)
    (sid : Json) (subId : Nat) (serverOk : Bool) (st2 : SubHandlerState)
    (posts : List SigPost)
    (h : unsubscribeToSignal st uri sid subId serverOk = .ok (st2, posts))
    (hlen : (aerase (defaultGetQueues st.signalQueuesById sid) subId).length ≠ 0) :
    st2 = { subscriptionCount := st.subscriptionCount,
            signalIdByUri := st.signalIdByUri,
            signalQueuesById := aput st.signalQueuesById sid
              (aerase (defaultGetQueues st.signalQueuesById sid) subId) }
    ∧ posts = [] := by
  have hq := unsubscribeToSignal_ok_mem st uri sid subId serverOk st2 posts h
  simp [unsubscribeToSignal, hq, hlen] at h
  exact ⟨h.1.symm, h.2⟩

theorem unsubscribeToSignal_inv (st : SubHandlerState) (uri : String)
    (sid : Json) (subId : Nat) (serverOk : Bool) (st2 : SubHandlerState)
    (posts : List SigPost) (hinv : SubInv st)
    (hmap : alookup st.signalIdByUri uri = some sid)
    (h : unsubscribeToSignal st uri sid subId serverOk = .ok (st2, posts)) :
    SubInv st2 := by
  obtain ⟨h1, h3, h4, h5⟩ := hinv
  by_cases hlen :
      (aerase (defaultGetQueues st.signalQueuesById sid) subId).length = 0
  · obtain ⟨hst2, hposts⟩ :=
      unsubscribeToSignal_ok_empty st uri sid subId serverOk st2 posts h hlen
    subst hst2
    refine ⟨?_, ?_, ?_, ?_⟩
    · intro u s hu
      have hne : u ≠ uri := by
        intro he
        subst he
        rw [alookup_aerase_self] at hu
        cases hu
      rw [alookup_aerase_ne _ _ _ hne] at hu
      have hssid : s ≠ sid := by
        intro he
        subst he
        exact hne (h3 u uri s hu hmap)
      rw [defaultGetQueues_aput_ne _ _ _ _ hssid]
      exact h1 u s hu
    · intro u1 u2 s hm1 hm2
      have hn1 : u1 ≠ uri := by
        intro he
        subst he
        rw [alookup_aerase_self] at hm1
        cases hm1
      have hn2 : u2 ≠ uri := by
        intro he
        subst he
        rw [alookup_aerase_self] at hm2
        cases hm2
      rw [alookup_aerase_ne _ _ _ hn1] at hm1
      rw [alookup_aerase_ne _ _ _ hn2] at hm2
      exact h3 u1 u2 s hm1 hm2
    · intro s
      by_cases hs : s = sid
      · subst hs
        rw [defaultGetQueues_aput_self]
        exact List.Nodup.sublist (keys_aerase_sublist _ _) (h4 s)
      · rw [defaultGetQueues_aput_ne _ _ _ _ hs]
        exact h4 s
    · intro s k hk
      show k ≤ st.subscriptionCount
      by_cases hs : s = sid
      · subst hs
        rw [defaultGetQueues_aput_self] at hk
        exact h5 s k (List.Sublist.subset (keys_aerase_sublist _ _) hk)
      · rw [defaultGetQueues_aput_ne _ _ _ _ hs] at hk
        exact h5 s k hk
  · obtain ⟨hst2, hposts⟩ :=
      unsubscribeToSignal_ok_nonempty st uri sid subId serverOk st2 posts h hlen
    subst hst2
    refine ⟨?_, ?_, ?_, ?_⟩
    · intro u s hu
      by_cases hs : s = sid
      · subst hs
        rw [defaultGetQueues_aput_self]
        intro hnil
        rw [hnil] at hlen
        exact hlen rfl
      · rw [defaultGetQueues_aput_ne _ _ _ _ hs]
        exact h1 u s hu
    · exact h3
    · intro s
      by_cases hs : s = sid
      · subst hs
        rw [defaultGetQueues_aput_self]
        exact List.Nodup.sublist (keys_aerase_sublist _ _) (h4 s)
      · rw [defaultGetQueues_aput_ne _ _ _ _ hs]
        exact h4 s
    · intro s k hk
      show k ≤ st.subscriptionCount
      by_cases hs : s = sid
      · subst hs
        rw [defaultGetQueues_aput_self] at hk
        exact h5 s k (List.Sublist.subset (keys_aerase_sublist _ _) hk)
      · rw [defaultGetQueues_aput_ne _ _ _ _ hs] at hk
        exact h5 s k hk

theorem runSubOps_inv (ops : List SubOp) : ∀ (st st' : SubHandlerState)
    (posts : List SigPost),
    runSubOps st ops = .ok (st', posts) → SubInv st → SubInv st' := by
  induction ops with
  | nil =>
      intro st st' posts h hinv
      simp only [runSubOps, Except.ok.injEq, Prod.mk.injEq] at h
      rw [← h.1]
      exact hinv
  | cons op rest ih =>
      intro st st' posts h hinv
      cases op with
      | sub uri ssid =>
          simp only [runSubOps] at h
          by_cases hg : alookup st.signalIdByUri uri = none
              ∧ st.signalIdByUri.any (fun p => p.2 = ssid) = true
          · rw [if_pos hg] at h
            simp at h
          · rw [if_neg hg] at h
            cases hrest : runSubOps (subscribeToSignal st uri ssid).1 rest with
            | error e =>
                rw [hrest] at h
                simp at h
            | ok pr =>
                obtain ⟨stf, ps⟩ := pr
                rw [hrest] at h
                simp only [Except.ok.injEq, Prod.mk.injEq] at h
                have hguard : alookup st.signalIdByUri uri = none →
                    ∀ u, alookup st.signalIdByUri u ≠ some ssid := by
                  intro hnone u hsome
                  apply hg
                  refine ⟨hnone, ?_⟩
                  rw [List.any_eq_true]
                  exact ⟨(u, ssid), alookup_mem _ _ _ hsome, by simp⟩
                rw [← h.1]
                exact ih _ _ _ hrest (subscribeToSignal_inv st uri ssid hinv hguard)
      | unsub uri sid subId serverOk =>
          simp only [runSubOps] at h
          by_cases hm : alookup st.signalIdByUri uri = some sid
          · rw [if_pos hm] at h
            split at h
            next st1 ps1 hunsub =>
              split at h
              next stf ps hrest =>
                simp only [Except.ok.injEq, Prod.mk.injEq] at h
                rw [← h.1]
                exact ih _ _ _ hrest
                  (unsubscribeToSignal_inv st uri sid subId serverOk st1 ps1
                    hinv hm hunsub)
              next e hrest => simp at h
            next e hunsub => simp at h
          · rw [if_neg hm] at h
            simp at h

theorem subInv_init : SubInv initSubHandler := by
  refine ⟨?_, ?_, ?_, ?_⟩
  · intro u s hu
    simp [initSubHandler, alookup] at hu
  · intro u1 u2 s hm1 hm2
    simp [initSubHandler, alookup] at hm1
  · intro s
    simp [initSubHandler, defaultGetQueues, alookup]
  · intro s k hk
    simp [initSubHandler, defaultGetQueues, alookup] at hk

/-- Claim C3: along every admissible operation sequence on the subscription
handler (`runSubOps` from the initial state), the POSTs the server sees obey
the refcount discipline path by path: a `subscribe_to_signal` call sends a
subscribe POST exactly when the path's live local subscriber count is zero
(so exactly one subscribe POST is sent for the whole interval during which
the count is positive), and an awaited unsubscribe handle sends a POST —
whose body is the stored signal id of the handle — exactly when it drops the
count from one to zero; intermediate unsubscribes send no POST. -/
theorem c3_refcounted_posts (ops : List SubOp) (st : SubHandlerState)
    (posts : List SigPost)
    (h : runSubOps initSubHandler ops = .ok (st, posts)) :
    (∀ uri ssid, (subscribeToSignal st uri ssid).2.1
        = if liveCount st uri = 0 then [SigPost.subscribePost uri] else [])
    ∧ (∀ uri sid subId serverOk st2 posts2,
        alookup st.signalIdByUri uri = some sid →
        unsubscribeToSignal st uri sid subId serverOk = .ok (st2, posts2) →
        posts2 = if liveCount st uri = 1
          then [SigPost.unsubscribePost uri sid] else []) := by
  have hinv := runSubOps_inv ops initSubHandler st posts h subInv_init
  obtain ⟨h1, h3, h4, h5⟩ := hinv
  constructor
  · intro uri ssid
    cases hlk : alookup st.signalIdByUri uri with
    | none =>
        simp [subscribeToSignal, hlk, liveCount]
    | some sid =>
        have hne := h1 uri sid hlk
        simp only [subscribeToSignal, hlk, liveCount]
        rw [if_neg]
        intro hz
        exact hne (List.length_eq_zero.mp hz)
  · intro uri sid subId serverOk st2 posts2 hm hunsub
    have hq := unsubscribeToSignal_ok_mem st uri sid subId serverOk st2 posts2
      hunsub
    have hlen := aerase_length_succ (defaultGetQueues st.signalQueuesById sid)
      subId hq (h4 sid)
    by_cases hz :
        (aerase (defaultGetQueues st.signalQueuesById sid) subId).length = 0
    · obtain ⟨_, hposts⟩ := unsubscribeToSignal_ok_empty st uri sid subId
        serverOk st2 posts2 hunsub hz
      rw [hposts]
      simp only [liveCount, hm]
      rw [if_pos (by omega)]
    · obtain ⟨_, hposts⟩ := unsubscribeToSignal_ok_nonempty st uri sid subId
        serverOk st2 posts2 hunsub hz
      rw [hposts]
      simp only [liveCount, hm]
      rw [if_neg (by omega)]

/-- Witness for `c3_refcounted_posts`: the spec's refcount scenario — two
subscribers to `/recorder:started`; awaiting the first unsubscribe handle
(count 2 → 1) sends no POST. -/
theorem c3_refcounted_posts_witness :
    ([] : List SigPost)
      = if liveCount
            { subscriptionCount := 2,
              signalIdByUri := [("/recorder:started", Json.jstr "sig1")],
              signalQueuesById := [(Json.jstr "sig1", [(1, []), (2, [])])] }
            "/recorder:started" = 1
        then [SigPost.unsubscribePost "/recorder:started" (Json.jstr "sig1")]
        else [] :=
  (c3_refcounted_posts
    [SubOp.sub "/recorder:started" (Json.jstr "sig1"),
     SubOp.sub "/recorder:started" (Json.jstr "sig1")]
    { subscriptionCount := 2,
      signalIdByUri := [("/recorder:started", Json.jstr "sig1")],
      signalQueuesById := [(Json.jstr "sig1", [(1, []), (2, [])])] }
    [SigPost.subscribePost "/recorder:started"]
    (by rfl)).2
    "/recorder:started" (Json.jstr "sig1") 1 true
    { subscriptionCount := 2,
      signalIdByUri := [("/recorder:started", Json.jstr "sig1")],
      signalQueuesById := [(Json.jstr "sig1", [(2, [])])] }
    []
    (by decide) (by rfl)
